import Mathlib

/-!
Verification of the AI-driven E2E testing core (CodeCampusCo/ai-testing).

Shallow embedding of the TypeScript sources:
  * `src/mcp/browser.ts`   — `PlaywrightMCPClient` (automation facade + snapshot parser)
  * `src/mcp/client.ts`    — `MCPClient` (protocol client)
  * `src/ai/langchain-service.ts` — `LangChainAIService` (oracle gateway)
  * `src/agents/test-executor.ts` — `TestExecutorAgent` (step execution loop)
  * `src/workflow/simple-workflow.ts` — `SimpleTestWorkflow` (orchestrator)

Strings are modelled as `List Char` where character-level parsing happens
(the snapshot parser) and as `String` elsewhere.  External effects (the
browser subprocess, the AI model, screenshots, wall-clock time) are
abstracted as environment records supplying the outcome of each awaited
call; observable actions are recorded in explicit event traces.
-/

namespace AITest

/-! ## Snapshot parser (`PlaywrightMCPClient.parseSnapshotYaml` / `parseElementLine`)

The JS code works with regular expressions; each regex used by
`parseElementLine` is embedded as a character-list scanner with the same
leftmost-match semantics.
-/

/-- JS `String.prototype.split('\n')`: splitting the empty string yields
`[""]`, and every newline separates two (possibly empty) lines. -/
def splitLinesAux : List Char → List Char → List (List Char)
  | [], acc => [acc.reverse]
  | c :: cs, acc =>
    if c = '\n' then acc.reverse :: splitLinesAux cs []
    else splitLinesAux cs (c :: acc)

def splitLines (l : List Char) : List (List Char) :=
  splitLinesAux l []

/-- Removal of trailing whitespace (the tail half of JS `trim()`). -/
def dropTrailingWS : List Char → List Char
  | [] => []
  | c :: t =>
    let r := dropTrailingWS t
    if r.isEmpty && c.isWhitespace then [] else c :: r

/-- JS `String.prototype.trim()`: strip leading and trailing whitespace. -/
def trim (l : List Char) : List Char :=
  dropTrailingWS (l.dropWhile Char.isWhitespace)

/-- JS `String.prototype.includes(pat)`: contiguous occurrence of `pat`. -/
def containsSub (pat : List Char) : List Char → Bool
  | [] => pat.isEmpty
  | l@(_ :: rest) => pat.isPrefixOf l || containsSub pat rest

/-- One attempt of the regex `\[KEY=([^\]]+)\]` anchored at the head of `l`
(`key` is the literal `"[ref="` or `"[cursor="`): the literal key, then a
non-empty capture of non-`]` characters, then `]`. -/
def bracketCaptureAt (key : List Char) (l : List Char) : Option (List Char) :=
  if key.isPrefixOf l then
    let after := l.drop key.length
    let cap := after.takeWhile (fun c => c ≠ ']')
    if cap = [] then none
    else if (after.dropWhile (fun c => c ≠ ']')) = [] then none
    else some cap
  else none

/-- Leftmost match of `\[KEY=([^\]]+)\]`, as in `line.match(/\[ref=([^\]]+)\]/)`. -/
def firstBracketCapture (key : List Char) : List Char → Option (List Char)
  | [] => none
  | l@(_ :: rest) =>
    match bracketCaptureAt key l with
    | some cap => some cap
    | none => firstBracketCapture key rest

/-- Leftmost match of `"([^"]+)"` (`line.match(/"([^"]+)"/)`): an opening
quote, a non-empty run of non-quote characters, a closing quote. -/
def firstQuoted : List Char → Option (List Char)
  | [] => none
  | c :: rest =>
    if c = '"' then
      let cap := rest.takeWhile (fun x => x ≠ '"')
      if cap = [] then firstQuoted rest
      else if (rest.dropWhile (fun x => x ≠ '"')) = [] then firstQuoted rest
      else some cap
    else firstQuoted rest

/-- JS `\w`: ASCII letters, digits and underscore. -/
def isWordChar (c : Char) : Bool := c.isAlphanum || c = '_'

/-- Anchored match of `^\s*-\s*(\w+)` (`line.match(/^\s*-\s*(\w+)/)`). -/
def matchTypeTok (l : List Char) : Option (List Char) :=
  match l.dropWhile Char.isWhitespace with
  | '-' :: rest =>
    let cap := (rest.dropWhile Char.isWhitespace).takeWhile isWordChar
    if cap = [] then none else some cap
  | _ => none

/-- Leftmost match of `\):\s*(.+)$` (`line.match(/\):\s*(.+)$/)`), followed by
the source's `.trim()` on the capture: the first occurrence of the two-character
delimiter `):` that is not at the end of the line, with the trimmed remainder
returned (possibly empty after trimming, which the caller treats as absent). -/
def textAfterParenColon : List Char → Option (List Char)
  | [] => none
  | c :: rest =>
    if c = ')' then
      match rest with
      | ':' :: tail =>
        if tail = [] then textAfterParenColon rest else some (trim tail)
      | _ => textAfterParenColon rest
    else textAfterParenColon rest

/-- One attempt of `\/url:\s*([^\s]+)` anchored at the head of `l`. -/
def urlCaptureAt (l : List Char) : Option (List Char) :=
  if ("/url:".data).isPrefixOf l then
    let after := (l.drop 5).dropWhile Char.isWhitespace
    let cap := after.takeWhile (fun c => ¬ c.isWhitespace)
    if cap = [] then none else some cap
  else none

/-- Leftmost match of `\/url:\s*([^\s]+)` (`line.match(/\/url:\s*([^\s]+)/)`). -/
def firstUrl : List Char → Option (List Char)
  | [] => none
  | l@(_ :: rest) =>
    match urlCaptureAt l with
    | some cap => some cap
    | none => firstUrl rest

def refKey : List Char := "[ref=".data

def cursorKey : List Char := "[cursor=".data

/-- `ElementInfo` from `src/types/mcp.ts`. -/
structure ElementInfo where
  ref : List Char
  type : List Char
  role : List Char
  name : Option (List Char)
  text : Option (List Char)
  url : Option (List Char)
  disabled : Bool
  active : Bool
  cursor : Option (List Char)
deriving Repr, DecidableEq

/-- `PlaywrightMCPClient.parseElementLine`: a line without a `[ref=...]`
token yields `null`; otherwise the role token, quoted name, trailing text,
state markers and cursor/url attributes are extracted.  Optional fields are
set only when the corresponding capture is truthy, exactly as the source's
`if (name) element.name = name;` chain does. -/
def parseElementLine (line : List Char) : Option ElementInfo :=
  match firstBracketCapture refKey line with
  | none => none
  | some ref =>
    let type := (matchTypeTok line).getD ("generic".data)
    let name := firstQuoted line
    let text :=
      match textAfterParenColon line with
      | some t => if t = [] then none else some t
      | none => none
    let disabled := containsSub ("[disabled]".data) line
    let active := containsSub ("[active]".data) line
    let cursor := firstBracketCapture cursorKey line
    let url := firstUrl line
    some { ref := ref, type := type, role := type, name := name, text := text,
           url := url, disabled := disabled, active := active, cursor := cursor }

/-- One iteration of the `parseSnapshotYaml` loop body: trim the raw line,
skip blank lines (`!line`) and comment lines (`line.startsWith('#')`), then
`parseElementLine`. -/
def parseLine (raw : List Char) : Option ElementInfo :=
  let line := trim raw
  if line = [] then none
  else if line.headD ' ' = '#' then none
  else parseElementLine line

/-- The accumulation loop of `parseSnapshotYaml`: lines whose
`parseElementLine` succeeds are pushed in order. -/
def parseLinesLoop : List (List Char) → List ElementInfo
  | [] => []
  | l :: ls =>
    match parseLine l with
    | some e => e :: parseLinesLoop ls
    | none => parseLinesLoop ls

/-- `PlaywrightMCPClient.parseSnapshotYaml`: split on newlines and collect
the parsed elements. -/
def parseSnapshotYaml (yamlContent : List Char) : List ElementInfo :=
  parseLinesLoop (splitLines yamlContent)

/-- A line paired with its index, parsed (specification device). -/
def indexedParse (p : ℕ × List Char) : Option (ℕ × ElementInfo) :=
  (parseLine p.2).map (fun e => (p.1, e))

/-- The parse annotated with the index of the source line each element came
from (specification device for the order-preservation property). -/
def parseWithIndex (yamlContent : List Char) : List (ℕ × ElementInfo) :=
  (splitLines yamlContent).enum.filterMap indexedParse

/-! ## Protocol client (`src/mcp/client.ts`, class `MCPClient`)

The MCP SDK transport and `Client` objects are abstracted: the state keeps
whether `this.client`/`this.transport` are non-null and the `isConnected`
flag, and the outcome of an awaited SDK call is supplied from outside.
Requests actually handed to the SDK are recorded in a trace. -/

/-- Result shape of an SDK tool call (`MCPToolCallResult` in `src/types/mcp.ts`). -/
structure ContentItem where
  type : String
  text : Option String
deriving Repr, DecidableEq

structure MCPToolCallResult where
  content : Option (List ContentItem)
  isError : Option Bool := none
deriving Repr, DecidableEq

/-- Observable state of one `MCPClient` instance. -/
structure MCPClientState where
  clientPresent : Bool
  transportPresent : Bool
  connected : Bool
  command : String
  args : List String
deriving Repr, DecidableEq

/-- The constructor `new MCPClient(command, args, logger)`. -/
def mkMCPClient (command : String) (args : List String) : MCPClientState :=
  { clientPresent := false, transportPresent := false, connected := false,
    command := command, args := args }

/-- A request handed to the underlying SDK (absent when the guard rejects). -/
inductive SentReq
  | toolsCall (name : String)
  | toolsList
deriving Repr, DecidableEq

inductive ConnEvent
  | spawnTransport
deriving Repr, DecidableEq

def notConnectedMsg : String := "Client not connected. Call connect() first."

/-- `MCPClient.connect`: an already-connected client returns at once;
otherwise a transport and client are created (and stay assigned even if the
awaited SDK `connect` fails, whose outcome is `sdkConnect`), and on success
`isConnected` becomes true.  Failures are logged and rethrown. -/
def connect (st : MCPClientState) (sdkConnect : Except String Unit) :
    Except String Unit × MCPClientState × List ConnEvent :=
  if st.connected then (Except.ok (), st, [])
  else
    let st' := { st with transportPresent := true, clientPresent := true }
    match sdkConnect with
    | Except.ok _ => (Except.ok (), { st' with connected := true }, [ConnEvent.spawnTransport])
    | Except.error e => (Except.error e, st', [ConnEvent.spawnTransport])

/-- The `transport.onerror` handler: marks the client disconnected. -/
def onTransportError (st : MCPClientState) : MCPClientState :=
  { st with connected := false }

/-- The `transport.onclose` handler: marks the client disconnected. -/
def onTransportClose (st : MCPClientState) : MCPClientState :=
  { st with connected := false }

/-- `MCPClient.callTool`: guard `!this.client || !this.isConnected` throws
"not connected" before any request is sent; otherwise the request goes to
the SDK (outcome `sdkResult`) and errors are logged and rethrown. -/
def callTool (st : MCPClientState) (name : String)
    (sdkResult : Except String MCPToolCallResult) :
    Except String MCPToolCallResult × List SentReq :=
  if st.clientPresent ∧ st.connected then (sdkResult, [SentReq.toolsCall name])
  else (Except.error notConnectedMsg, [])

/-- `MCPClient.listTools`: same guard and propagation as `callTool`. -/
def listTools (st : MCPClientState)
    (sdkResult : Except String MCPToolCallResult) :
    Except String MCPToolCallResult × List SentReq :=
  if st.clientPresent ∧ st.connected then (sdkResult, [SentReq.toolsList])
  else (Except.error notConnectedMsg, [])

/-! ## Automation facade (`src/mcp/browser.ts`, class `PlaywrightMCPClient`)

Each facade call is parameterized by the outcome of the underlying
`MCPClient` call it wraps. -/

/-- Facade-level mutable state (`_currentUrl`). -/
structure FacadeState where
  currentUrl : Option String
deriving Repr, DecidableEq

def lookupParam (params : List (String × String)) (k : String) : Option String :=
  (params.find? (fun p => p.1 == k)).map (fun p => p.2)

/-- `PlaywrightMCPClient.callTool`: forwards to the protocol client, tracks
`_currentUrl` on a successful `browser_navigate` with a truthy `url` param,
and rethrows every failure unchanged (`catch { ...; throw error; }`). -/
def callToolF (st : FacadeState) (toolName : String)
    (params : List (String × String))
    (underlying : Except String MCPToolCallResult) :
    Except String MCPToolCallResult × FacadeState :=
  match underlying with
  | Except.ok r =>
    let st' :=
      if toolName = "browser_navigate" then
        match lookupParam params "url" with
        | some u => if u = "" then st else { st with currentUrl := some u }
        | none => st
      else st
    (Except.ok r, st')
  | Except.error e => (Except.error e, st)

/-- `PlaywrightMCPClient.listTools`: a bare passthrough with no catch. -/
def listToolsF (underlying : Except String MCPToolCallResult) :
    Except String MCPToolCallResult :=
  underlying

/-- The rawYaml accumulation in `getSnapshot`: text chunks of the response
content joined with a newline after each chunk; non-text or falsy chunks
are skipped. -/
def extractYaml (resp : MCPToolCallResult) : List Char :=
  match resp.content with
  | none => []
  | some items =>
    items.foldl
      (fun acc it =>
        if it.type = "text" then
          match it.text with
          | some t => if t = "" then acc else acc ++ t.data ++ ['\n']
          | none => acc
        else acc)
      []

/-- `SnapshotResult` from `src/types/mcp.ts`. -/
structure SnapshotResult where
  elements : List ElementInfo
  rawYaml : List Char
deriving Repr, DecidableEq

/-- `PlaywrightMCPClient.getSnapshot`: calls the `browser_snapshot` tool and
parses the text content; the surrounding `try/catch` converts ANY failure
into a normal return of `{ elements: [], rawYaml: '' }`. -/
def getSnapshot (st : FacadeState)
    (underlying : Except String MCPToolCallResult) :
    Except String SnapshotResult × FacadeState :=
  match callToolF st "browser_snapshot" [] underlying with
  | (Except.ok resp, st') =>
    let rawYaml := extractYaml resp
    (Except.ok { elements := parseSnapshotYaml rawYaml, rawYaml := rawYaml }, st')
  | (Except.error _, st') =>
    (Except.ok { elements := [], rawYaml := [] }, st')

/-! ## Oracle gateway (`src/ai/langchain-service.ts`, class `LangChainAIService`)

The model invocation plus `JSON.parse` is abstracted as an
`Except String Json` (an error stands for a model failure or a JSON parse
throw); the zod schemas `MCPCallsSchema` and `VerificationResultSchema`
are embedded as validators over a JSON value type. -/

inductive Json where
  | null
  | bool (b : Bool)
  | num (n : Int)
  | str (s : String)
  | arr (items : List Json)
  | obj (fields : List (String × Json))
deriving Repr

/-- `{ tool: z.string(), args: z.record(z.any()) }` (`MCPCallSchema`). -/
structure MCPCall where
  tool : String
  args : List (String × Json)
deriving Repr

/-- `{ result: z.boolean(), reasoning: z.string().optional() }`
(`VerificationResultSchema`). -/
structure VerificationResult where
  result : Bool
  reasoning : Option String
deriving Repr

def jsonLookup (fields : List (String × Json)) (k : String) : Option Json :=
  (fields.find? (fun p => p.1 == k)).map (fun p => p.2)

/-- `VerificationResultSchema.parse`: requires an object with a boolean
`result`; `reasoning` may be absent or a string (zod `.optional()`). -/
def validateVerificationResult : Json → Except String VerificationResult
  | Json.obj fields =>
    match jsonLookup fields "result" with
    | some (Json.bool b) =>
      (match jsonLookup fields "reasoning" with
       | some (Json.str s) => Except.ok { result := b, reasoning := some s }
       | none => Except.ok { result := b, reasoning := none }
       | some _ => Except.error "Invalid reasoning")
    | _ => Except.error "Invalid result"
  | _ => Except.error "Expected object"

/-- `MCPCallSchema.parse`: an object with a string `tool` and an object
(record) `args`. -/
def validateMCPCall : Json → Except String MCPCall
  | Json.obj fields =>
    match jsonLookup fields "tool", jsonLookup fields "args" with
    | some (Json.str t), some (Json.obj a) => Except.ok { tool := t, args := a }
    | _, _ => Except.error "Invalid MCP call"
  | _ => Except.error "Expected object"

/-- `MCPCallsSchema.parse`: an array each of whose entries validates. -/
def validateMCPCalls : Json → Except String (List MCPCall)
  | Json.arr items => items.mapM validateMCPCall
  | _ => Except.error "Expected array"

/-- `LangChainAIService.generateMCPCommands`: parse and schema-validate the
model response; the `catch` wraps every failure into a thrown
"Failed to generate MCP commands" error (a hard failure). -/
def generateMCPCommands (modelResponse : Except String Json) :
    Except String (List MCPCall) :=
  match modelResponse with
  | Except.error e => Except.error ("Failed to generate MCP commands: " ++ e)
  | Except.ok j =>
    match validateMCPCalls j with
    | Except.ok calls => Except.ok calls
    | Except.error e => Except.error ("Failed to generate MCP commands: " ++ e)

/-- `LangChainAIService.verifyOutcome`: parse and schema-validate the model
response and return its boolean verdict; the `catch` RETURNS `false`
instead of rethrowing, so a structurally invalid response is coerced to the
verdict `false`. -/
def verifyOutcome (modelResponse : Except String Json) : Bool :=
  match modelResponse with
  | Except.error _ => false
  | Except.ok j =>
    match validateVerificationResult j with
    | Except.ok v => v.result
    | Except.error _ => false

/-! ## Test executor (`src/agents/test-executor.ts`, class `TestExecutorAgent`)

Data model from `src/types/workflow.ts`.  Wall-clock fields
(`startTime`/`endTime`/`duration`) are not modelled (durations are kept as
the constant 0 the structures are initialised with).  Every awaited
external call is abstracted by an `ExecEnv` field giving its outcome, and
observable actions are recorded as `Event`s in order. -/

inductive RStatus
  | passed
  | failed
  | skipped
  | error
deriving Repr, DecidableEq

structure StepResult where
  stepId : String
  status : RStatus
  duration : ℕ := 0
  error : Option String := none
  actualValue : Option String := none
  screenshot : Option String := none
deriving Repr, DecidableEq

structure AccessibilityReport where
  elementsFound : ℕ
  interactableElements : ℕ
  issues : List String
deriving Repr, DecidableEq

structure TestResult where
  scenarioId : String
  status : RStatus
  steps : List StepResult
  screenshots : List String
  error : Option String := none
  accessibility : Option AccessibilityReport := none
deriving Repr, DecidableEq

structure TestStep where
  id : String
  action : String
  target : Option String := none
  value : Option String := none
  description : String := ""
  timeout : Option ℕ := none
deriving Repr, DecidableEq

structure ExpectedOutcome where
  id : String := ""
  type : String
  target : Option String := none
  value : Option String := none
  description : String := ""
deriving Repr, DecidableEq

/-- `TestScenario` (the optional `rawSteps`/`rawOutcomes` model `undefined`
as `[]`, which the source treats identically via its truthiness checks). -/
structure TestScenario where
  id : String
  description : String
  steps : List TestStep
  expectedOutcomes : List ExpectedOutcome
  rawSteps : List String := []
  rawOutcomes : List String := []
deriving Repr, DecidableEq

/-- Observable actions of one `TestExecutorAgent.process` run. -/
inductive Event
  | connectAttempt
  | planRequest (stepIdx : ℕ)
  | toolCall (name : String)
  | outcomeCheck (outcomeIdx : ℕ)
  | screenshotAttempt (tag : String)
  | disconnectAttempt
deriving Repr, DecidableEq

/-- Outcomes of the awaited external calls made during `process`.
`getSnapshot` never appears: the facade's `getSnapshot` catches every
failure (see `getSnapshot` above), so snapshot refreshes cannot fail a
step.  `outcomeVerdict` is the boolean produced by
`verifyRawOutcomeWithAI`, which itself coerces oracle failures to `false`
(see `verifyOutcome`). -/
structure ExecEnv where
  connectOutcome : Except String Unit
  planGen : ℕ → Except String (List MCPCall)
  callOutcome : ℕ → ℕ → Except String Unit
  failShot : ℕ → Except String String
  outcomeVerdict : ℕ → Bool
  outcomeShot : ℕ → Except String String
  legacyStepError : ℕ → Option String
  legacyOutcome : ℕ → Except String Bool
  accessibilityReport : AccessibilityReport
  finalShot : Except String String
  disconnectOutcome : Except String Unit

/-- The inner `for (const call of mcpCalls)` loop of
`executeRawStepsWithAI`: execute each planned call in order, aborting on
the first failure with an `MCP call failed` error (the per-call wait after
`browser_click` is a timed delay, not modelled). -/
def runCalls (env : ExecEnv) (i : ℕ) : List MCPCall → ℕ → Except String Unit × List Event
  | [], _ => (Except.ok (), [])
  | c :: rest, j =>
    match env.callOutcome i j with
    | Except.ok _ =>
      let r := runCalls env i rest (j + 1)
      (r.1, Event.toolCall c.tool :: r.2)
    | Except.error e =>
      (Except.error ("MCP call failed: " ++ e), [Event.toolCall c.tool])

/-- The `try` body for one raw step: the empty-step guard, the
`convertStepToMCPCalls` oracle request (traced as `planRequest`), then the
call loop. -/
def tryRawStep (env : ExecEnv) (i : ℕ) (step : String) :
    Except String Unit × List Event :=
  if step = "" then (Except.error "Empty step", [])
  else
    match env.planGen i with
    | Except.error e =>
      (Except.error ("Failed to convert step \"" ++ step ++ "\" to MCP calls: " ++ e),
       [Event.planRequest i])
    | Except.ok calls =>
      let r := runCalls env i calls 0
      (r.1, Event.planRequest i :: r.2)

/-- The `for` loop of `TestExecutorAgent.executeRawStepsWithAI`.  On
success the passed `StepResult` is pushed and the loop continues.  On
failure the `catch` block sets the step result to failed, sets
`result.status = 'failed'`, attempts a failure screenshot, and `break`s —
note that this `break` happens BEFORE the `result.steps.push(stepResult)`
that follows the `try/catch`, so the failed `StepResult` is dropped. -/
def execRawLoop (env : ExecEnv) : List String → ℕ → TestResult → TestResult × List Event
  | [], _, result => (result, [])
  | step :: rest, i, result =>
    match tryRawStep env i step with
    | (Except.ok _, ev) =>
      let sr : StepResult :=
        { stepId := "raw-step-" ++ toString (i + 1), status := RStatus.passed }
      let r := execRawLoop env rest (i + 1)
        { result with steps := result.steps ++ [sr] }
      (r.1, ev ++ r.2)
    | (Except.error _, ev) =>
      let result := { result with status := RStatus.failed }
      let result :=
        match env.failShot i with
        | Except.ok p => { result with screenshots := result.screenshots ++ [p] }
        | Except.error _ => result
      (result, ev ++ [Event.screenshotAttempt ("failed-step-" ++ toString (i + 1))])

/-- `TestExecutorAgent.executeRawStepsWithAI` (the initial `getSnapshot`
and the per-step snapshot refreshes are total and result-free, so only the
loop is visible). -/
def executeRawStepsWithAI (env : ExecEnv) (rawSteps : List String)
    (result : TestResult) : TestResult × List Event :=
  execRawLoop env rawSteps 0 result

/-- The `for` loop of `TestExecutorAgent.verifyOutcomesWithAI`: empty
outcomes are skipped; each remaining outcome is judged
(`verifyRawOutcomeWithAI`, traced as `outcomeCheck`); the FIRST failed
verdict sets `status = 'failed'`, records the error, attempts a
screenshot, and `break`s — later outcomes are not evaluated. -/
def verifyOutcomesLoop (env : ExecEnv) : List String → ℕ → TestResult → TestResult × List Event
  | [], _, result => (result, [])
  | outcome :: rest, i, result =>
    if outcome = "" then verifyOutcomesLoop env rest (i + 1) result
    else if env.outcomeVerdict i then
      let r := verifyOutcomesLoop env rest (i + 1) result
      (r.1, Event.outcomeCheck i :: r.2)
    else
      let result :=
        { result with status := RStatus.failed,
                      error := some ("Expected outcome failed: " ++ outcome) }
      let result :=
        match env.outcomeShot i with
        | Except.ok p => { result with screenshots := result.screenshots ++ [p] }
        | Except.error _ => result
      (result,
       [Event.outcomeCheck i,
        Event.screenshotAttempt ("failed-outcome-" ++ toString (i + 1))])

/-- `TestExecutorAgent.verifyOutcomesWithAI`: a best-effort
`browser_wait_for_load_state` call (its failure only triggers a timed
fallback delay), then the outcome loop. -/
def verifyOutcomesWithAI (env : ExecEnv) (rawOutcomes : List String)
    (result : TestResult) : TestResult × List Event :=
  let r := verifyOutcomesLoop env rawOutcomes 0 result
  (r.1, Event.toolCall "browser_wait_for_load_state" :: r.2)

/-- The fallback `for (const step of input.steps)` loop of `process` using
`executeStep`.  `executeStep` catches every internal error and returns a
passed/failed `StepResult`; its browser interaction is abstracted by
`legacyStepError` (`none` = passed).  The failed step IS pushed here, then
`result.status = 'failed'` and `break`. -/
def legacyStepsLoop (env : ExecEnv) : List TestStep → ℕ → TestResult → TestResult
  | [], _, result => result
  | st :: rest, i, result =>
    match env.legacyStepError i with
    | none =>
      legacyStepsLoop env rest (i + 1)
        { result with steps := result.steps ++
            [{ stepId := st.id, status := RStatus.passed }] }
    | some e =>
      { result with
          steps := result.steps ++
            [{ stepId := st.id, status := RStatus.failed, error := some e }],
          status := RStatus.failed }

/-- `TestExecutorAgent.verifyOutcomes` (legacy path): first false verdict or
thrown verification error sets failed status plus error and breaks. -/
def legacyVerifyOutcomes (env : ExecEnv) : List ExpectedOutcome → ℕ → TestResult → TestResult
  | [], _, result => result
  | o :: rest, i, result =>
    match env.legacyOutcome i with
    | Except.ok true => legacyVerifyOutcomes env rest (i + 1) result
    | Except.ok false =>
      { result with status := RStatus.failed,
                    error := some ("Expected outcome failed: " ++ o.description) }
    | Except.error e =>
      { result with status := RStatus.failed,
                    error := some ("Outcome verification error: " ++ e) }

/-- The `try/catch` body of `TestExecutorAgent.process` (everything before
the `finally`): connect (the only call in the body whose failure reaches
the `catch`, which sets `status = 'error'`), the step phase (raw-steps path
when `rawSteps` is non-empty, legacy path otherwise), the outcome phase
(only when still passed; AI path when `rawOutcomes` is non-empty), and the
accessibility report (total: its own `catch` returns a default report,
abstracted as `env.accessibilityReport`). -/
def processCore (env : ExecEnv) (input : TestScenario) : TestResult × List Event :=
  let result0 : TestResult :=
    { scenarioId := input.id, status := RStatus.passed, steps := [], screenshots := [] }
  match env.connectOutcome with
  | Except.error e =>
    ({ result0 with status := RStatus.error, error := some e }, [Event.connectAttempt])
  | Except.ok _ =>
    let r1 :=
      if input.rawSteps ≠ [] then executeRawStepsWithAI env input.rawSteps result0
      else (legacyStepsLoop env input.steps 0 result0, [])
    let r2 :=
      if r1.1.status = RStatus.passed ∧ input.rawOutcomes ≠ [] then
        verifyOutcomesWithAI env input.rawOutcomes r1.1
      else if r1.1.status = RStatus.passed then
        (legacyVerifyOutcomes env input.expectedOutcomes 0 r1.1, [])
      else (r1.1, [])
    ({ r2.1 with accessibility := some env.accessibilityReport },
     Event.connectAttempt :: (r1.2 ++ r2.2))

/-- The final-screenshot attempt of the `finally` block: the path is pushed
on success, the failure is only logged. -/
def finalizeResult (env : ExecEnv) (r : TestResult) : TestResult :=
  match env.finalShot with
  | Except.ok p => { r with screenshots := r.screenshots ++ [p] }
  | Except.error _ => r

/-- `TestExecutorAgent.process`: the `try/catch` body followed by the
unconditional `finally` block, which always attempts the final screenshot
and then the disconnect (both with their own logged-only failure handling),
so `process` always returns a `TestResult` — this function is total. -/
def process (env : ExecEnv) (input : TestScenario) : TestResult × List Event :=
  let r := processCore env input
  (finalizeResult env r.1,
   r.2 ++ [Event.screenshotAttempt "final-state", Event.disconnectAttempt])

/-! ## Workflow orchestrator (`src/workflow/simple-workflow.ts`,
class `SimpleTestWorkflow`)

Each node catches its own failures and encodes them into
`WorkflowState.error`; `run` routes on `state.error` after each node.  The
oracle call of the scenario-generation node
(`parseInput` + `scenarioAgent.process`) is abstracted as
`WorkflowEnv.scenarioAgentResult`; the analysis node's oracle call as
`WorkflowEnv.analysisResult`.  The outer `try/catch` of `run` is
unreachable because every node is total, and is therefore not modelled. -/

structure TestAnalysis where
  summary : String
  passed : Bool
  issues : List String
  suggestions : List String
  accessibilityScore : ℕ
deriving Repr, DecidableEq

inductive WStep
  | generate
  | parse
  | execute
  | analyze
  | complete
deriving Repr, DecidableEq

structure WorkflowState where
  input : String
  scenario : Option TestScenario := none
  executionResult : Option TestResult := none
  analysis : Option TestAnalysis := none
  currentStep : WStep
  error : Option String := none
deriving Repr, DecidableEq

structure WorkflowEnv where
  scenarioAgentResult : Except String TestScenario
  executor : ExecEnv
  analysisResult : Except String TestAnalysis
  now : ℕ

/-- Nodes invoked during a `run` (the observable short-circuit trace). -/
inductive WNode
  | generate
  | parseInput
  | execute
  | analyze
deriving Repr, DecidableEq

/-- `SimpleTestWorkflow.parseMarkdownToScenario`: a pure markdown scan
collecting the `# ` title, `## ` section headers (lower-cased), and the
`- ` items of the `test steps` / `expected results` sections.  (The
`metadata` field, which only carries priority and a time estimate, is not
modelled.) -/
def parseMdLoop : List (List Char) → List Char → List Char → List String → List String →
    List Char × List String × List String
  | [], description, _, rawSteps, rawOutcomes => (description, rawSteps, rawOutcomes)
  | line :: rest, description, currentSection, rawSteps, rawOutcomes =>
    let t := trim line
    if ("# ".data).isPrefixOf t then
      parseMdLoop rest (trim (t.drop 2)) currentSection rawSteps rawOutcomes
    else if ("## ".data).isPrefixOf t then
      parseMdLoop rest description ((trim (t.drop 3)).map Char.toLower) rawSteps rawOutcomes
    else if currentSection = ("test steps".data) ∧ ("- ".data).isPrefixOf t then
      parseMdLoop rest description currentSection
        (rawSteps ++ [String.mk (trim (t.drop 2))]) rawOutcomes
    else if currentSection = ("expected results".data) ∧ ("- ".data).isPrefixOf t then
      parseMdLoop rest description currentSection rawSteps
        (rawOutcomes ++ [String.mk (trim (t.drop 2))])
    else
      parseMdLoop rest description currentSection rawSteps rawOutcomes

def parseMarkdownToScenario (now : ℕ) (markdown : List Char) : TestScenario :=
  let r := parseMdLoop (splitLines markdown) [] [] [] []
  { id := "test-" ++ toString now,
    description := if r.1 = [] then "Parsed test scenario" else String.mk r.1,
    steps := [], expectedOutcomes := [],
    rawSteps := r.2.1, rawOutcomes := r.2.2 }

/-- `SimpleTestWorkflow.generateScenario`: on oracle success the scenario
is stored and `currentStep` moves to `execute`; the `catch` encodes the
failure as `currentStep = 'complete'` with a prefixed error message. -/
def generateScenario (env : WorkflowEnv) (state : WorkflowState) : WorkflowState :=
  match env.scenarioAgentResult with
  | Except.ok scenario =>
    { state with scenario := some scenario, currentStep := WStep.execute, error := none }
  | Except.error msg =>
    { state with currentStep := WStep.complete,
                 error := some ("Scenario generation failed: " ++ msg) }

/-- `SimpleTestWorkflow.parseStructuredInput`: `parseMarkdownToScenario` is
total, so the `catch` is unreachable and this node always succeeds. -/
def parseStructuredInput (env : WorkflowEnv) (state : WorkflowState) : WorkflowState :=
  { state with scenario := some (parseMarkdownToScenario env.now state.input.data),
               currentStep := WStep.execute, error := none }

/-- `SimpleTestWorkflow.executeTest`: guard on a missing scenario, then
`executorAgent.process` (total, see `process`), storing the result and
moving to `analyze`. -/
def executeTest (env : WorkflowEnv) (state : WorkflowState) : WorkflowState :=
  match state.scenario with
  | none =>
    { state with currentStep := WStep.complete,
                 error := some "No scenario available for execution" }
  | some sc =>
    { state with executionResult := some (process env.executor sc).1,
                 currentStep := WStep.analyze, error := none }

/-- `SimpleTestWorkflow.analyzeResults`: guard on missing inputs, then the
analysis oracle; its `catch` encodes the failure AND stores a fallback
analysis (whose duration metrics, being wall-clock, are not modelled). -/
def analyzeResults (env : WorkflowEnv) (state : WorkflowState) : WorkflowState :=
  match state.scenario, state.executionResult with
  | some _, some res =>
    (match env.analysisResult with
     | Except.ok a =>
       { state with analysis := some a, currentStep := WStep.complete, error := none }
     | Except.error msg =>
       { state with
           currentStep := WStep.complete,
           error := some ("Results analysis failed: " ++ msg),
           analysis := some
             { summary := "Analysis failed due to error",
               passed := if res.status = RStatus.passed then true else false,
               issues := [msg],
               suggestions := ["Check logs for detailed error information"],
               accessibilityScore := 0 } })
  | _, _ =>
    { state with currentStep := WStep.complete,
                 error := some "Missing scenario or execution results for analysis" }

/-- Steps 2 and 3 of `run` (shared by both entry branches): execute, then
short-circuit on `error`, then analyze. -/
def runTail (env : WorkflowEnv) (s1 : WorkflowState) (nodes : List WNode) :
    WorkflowState × List WNode :=
  let s2 := executeTest env s1
  let nodes := nodes ++ [WNode.execute]
  if s2.error.isSome then (s2, nodes)
  else (analyzeResults env s2, nodes ++ [WNode.analyze])

/-- `SimpleTestWorkflow.run`: generate (or parse structured input when
`skipGeneration`), short-circuit on `error`, execute, short-circuit on
`error`, analyze.  The returned trace lists the nodes that were invoked. -/
def run (env : WorkflowEnv) (input : String) (skipGeneration : Bool) :
    WorkflowState × List WNode :=
  let state0 : WorkflowState :=
    { input := input,
      currentStep := if skipGeneration then WStep.execute else WStep.generate }
  if skipGeneration then
    let s1 := parseStructuredInput env state0
    if s1.error.isSome then (s1, [WNode.parseInput])
    else runTail env s1 [WNode.parseInput]
  else
    let s1 := generateScenario env state0
    if s1.error.isSome then (s1, [WNode.generate])
    else runTail env s1 [WNode.generate]

/-! ## Concrete instances used by the claim checks and witnesses -/

/-- An executor environment in which every step's plan is a single
`browser_click` call and the call of raw step B (index 1) fails. -/
def envC1 : ExecEnv :=
  { connectOutcome := Except.ok (),
    planGen := fun _ => Except.ok [{ tool := "browser_click", args := [] }],
    callOutcome := fun i _ => if i = 1 then Except.error "element not found" else Except.ok (),
    failShot := fun _ => Except.error "no screenshot data",
    outcomeVerdict := fun i => i ≠ 0,
    outcomeShot := fun _ => Except.ok "outcome-shot.png",
    legacyStepError := fun _ => none,
    legacyOutcome := fun _ => Except.ok true,
    accessibilityReport := { elementsFound := 0, interactableElements := 0, issues := [] },
    finalShot := Except.ok "final.png",
    disconnectOutcome := Except.ok () }

/-- Scenario with raw steps [A, B, C] (claim C1's shape). -/
def scnC1 : TestScenario :=
  { id := "s1", description := "", steps := [], expectedOutcomes := [],
    rawSteps := ["A", "B", "C"], rawOutcomes := ["O"] }

/-- Environment in which all steps succeed and the oracle judges outcome X
(index 0) failed and outcome Y (index 1) passed. -/
def envC2 : ExecEnv :=
  { envC1 with callOutcome := fun _ _ => Except.ok () }

/-- Scenario with one passing step and outcomes [X, Y]. -/
def scnC2 : TestScenario :=
  { scnC1 with rawSteps := ["S"], rawOutcomes := ["X", "Y"] }

/-- A fresh `TestResult` as `process` initialises it. -/
def resInit : TestResult :=
  { scenarioId := "s1", status := RStatus.passed, steps := [], screenshots := [] }

/-- A workflow environment whose scenario-generation oracle fails. -/
def wenvC6 : WorkflowEnv :=
  { scenarioAgentResult := Except.error "oracle down",
    executor := envC1,
    analysisResult := Except.ok
      { summary := "", passed := true, issues := [], suggestions := [], accessibilityScore := 0 },
    now := 42 }

/-- A sample snapshot report (one element line, a comment, a blank line, a
line without a reference token, a second element line). -/
def sampleYaml : List Char :=
  ("- button \"Go\" [ref=e1]\n# comment\n\nplain line, no token\n- link \"L\" [ref=e2]").data

/-- A client state whose transport has dropped (client object still
assigned, `isConnected` false). -/
def stDropped : MCPClientState :=
  { clientPresent := true, transportPresent := true, connected := false,
    command := "npx", args := ["@playwright/mcp@latest"] }

/-- A connected client state. -/
def stConnected : MCPClientState :=
  { clientPresent := true, transportPresent := true, connected := true,
    command := "npx", args := ["@playwright/mcp@latest"] }

/-! ## Lemmas about the snapshot parser -/

theorem parseLinesLoop_eq_filterMap (ls : List (List Char)) :
    parseLinesLoop ls = ls.filterMap parseLine := by
  induction ls with
  | nil => rfl
  | cons l ls ih =>
    simp only [parseLinesLoop, List.filterMap_cons]
    cases h : parseLine l <;> simp [ih]

theorem snd_filterMap_enumFrom (n : ℕ) (ls : List (List Char)) :
    ((List.enumFrom n ls).filterMap indexedParse).map Prod.snd = parseLinesLoop ls := by
  induction ls generalizing n with
  | nil => rfl
  | cons l ls ih =>
    simp only [List.enumFrom, List.filterMap_cons, parseLinesLoop, indexedParse]
    cases h : parseLine l with
    | none => simpa using ih (n + 1)
    | some e => simpa using ih (n + 1)

theorem fst_le_of_mem_filterMap_enumFrom (ls : List (List Char)) (n : ℕ)
    (p : ℕ × ElementInfo)
    (hp : p ∈ (List.enumFrom n ls).filterMap indexedParse) : n ≤ p.1 := by
  induction ls generalizing n with
  | nil => simp [List.enumFrom] at hp
  | cons l ls ih =>
    simp only [List.enumFrom, List.filterMap_cons, indexedParse] at hp
    cases h : parseLine l with
    | none =>
      rw [h] at hp
      simp only [Option.map_none'] at hp
      exact Nat.le_of_succ_le (ih (n + 1) hp)
    | some e =>
      rw [h] at hp
      simp only [Option.map_some', List.mem_cons] at hp
      rcases hp with rfl | hp
      · exact Nat.le_refl n
      · exact Nat.le_of_succ_le (ih (n + 1) hp)

theorem pairwise_fst_filterMap_enumFrom (ls : List (List Char)) (n : ℕ) :
    List.Pairwise (fun p q => p.1 < q.1)
      ((List.enumFrom n ls).filterMap indexedParse) := by
  induction ls generalizing n with
  | nil => simp [List.enumFrom]
  | cons l ls ih =>
    simp only [List.enumFrom, List.filterMap_cons, indexedParse]
    cases h : parseLine l with
    | none => simpa using ih (n + 1)
    | some e =>
      simp only [Option.map_some']
      refine List.Pairwise.cons ?_ (ih (n + 1))
      intro q hq
      have := fst_le_of_mem_filterMap_enumFrom ls (n + 1) q hq
      omega

theorem mem_filterMap_enumFrom_source (ls : List (List Char)) (n : ℕ)
    (p : ℕ × ElementInfo)
    (hp : p ∈ (List.enumFrom n ls).filterMap indexedParse) :
    ∃ raw, ls.get? (p.1 - n) = some raw ∧ parseLine raw = some p.2 := by
  induction ls generalizing n with
  | nil => simp [List.enumFrom] at hp
  | cons l ls ih =>
    simp only [List.enumFrom, List.filterMap_cons, indexedParse] at hp
    cases h : parseLine l with
    | none =>
      rw [h] at hp
      simp only [Option.map_none'] at hp
      have hle := fst_le_of_mem_filterMap_enumFrom ls (n + 1) p hp
      obtain ⟨raw, hget, hpl⟩ := ih (n + 1) hp
      refine ⟨raw, ?_, hpl⟩
      have hk : p.1 - n = (p.1 - (n + 1)) + 1 := by omega
      rw [hk, List.get?_cons_succ]
      exact hget
    | some e =>
      rw [h] at hp
      simp only [Option.map_some', List.mem_cons] at hp
      rcases hp with rfl | hp
      · exact ⟨l, by simp, by simpa using h⟩
      · have hle := fst_le_of_mem_filterMap_enumFrom ls (n + 1) p hp
        obtain ⟨raw, hget, hpl⟩ := ih (n + 1) hp
        refine ⟨raw, ?_, hpl⟩
        have hk : p.1 - n = (p.1 - (n + 1)) + 1 := by omega
        rw [hk, List.get?_cons_succ]
        exact hget

theorem isPrefixOf_of_isPrefixOf_dropTrailingWS :
    ∀ (v q : List Char), q.isPrefixOf (dropTrailingWS v) = true →
      q.isPrefixOf v = true := by
  intro v
  induction v with
  | nil => intro q h; simpa [dropTrailingWS] using h
  | cons c t ih =>
    intro q h
    simp only [dropTrailingWS] at h
    split at h
    · cases q with
      | nil => simp [List.isPrefixOf]
      | cons a as => simp [List.isPrefixOf] at h
    · cases q with
      | nil => simp [List.isPrefixOf]
      | cons a as =>
        simp only [List.isPrefixOf, Bool.and_eq_true] at h ⊢
        exact ⟨h.1, ih as h.2⟩

theorem containsSub_dropTrailingWS (pat v : List Char)
    (h : containsSub pat v = false) :
    containsSub pat (dropTrailingWS v) = false := by
  induction v with
  | nil => simpa [dropTrailingWS] using h
  | cons c t ih =>
    simp only [containsSub, Bool.or_eq_false_iff] at h
    obtain ⟨hp, ht⟩ := h
    simp only [dropTrailingWS]
    split
    · cases hpat : pat with
      | nil => rw [hpat] at hp; simp [List.isPrefixOf] at hp
      | cons a as => simp [containsSub]
    · simp only [containsSub, Bool.or_eq_false_iff]
      refine ⟨?_, ih ht⟩
      cases hq : pat.isPrefixOf (c :: dropTrailingWS t) with
      | false => rfl
      | true =>
        exfalso
        cases hpat : pat with
        | nil => rw [hpat] at hp; simp [List.isPrefixOf] at hp
        | cons a as =>
          rw [hpat] at hq hp
          simp only [List.isPrefixOf, Bool.and_eq_true] at hq
          have h2 := isPrefixOf_of_isPrefixOf_dropTrailingWS t as hq.2
          simp [List.isPrefixOf, hq.1, h2] at hp

theorem containsSub_dropWhile (pat : List Char) (p : Char → Bool)
    (v : List Char) (h : containsSub pat v = false) :
    containsSub pat (v.dropWhile p) = false := by
  induction v with
  | nil => simpa using h
  | cons c t ih =>
    simp only [containsSub, Bool.or_eq_false_iff] at h
    obtain ⟨hp, ht⟩ := h
    simp only [List.dropWhile]
    split
    · exact ih ht
    · simp [containsSub, hp, ht]

theorem containsSub_trim (pat v : List Char) (h : containsSub pat v = false) :
    containsSub pat (trim v) = false :=
  containsSub_dropTrailingWS pat _
    (containsSub_dropWhile pat Char.isWhitespace v h)

theorem firstBracketCapture_eq_none (key l : List Char)
    (h : containsSub key l = false) : firstBracketCapture key l = none := by
  induction l with
  | nil => rfl
  | cons c rest ih =>
    simp only [containsSub, Bool.or_eq_false_iff] at h
    obtain ⟨hp, ht⟩ := h
    simp only [firstBracketCapture, bracketCaptureAt, hp]
    simpa using ih ht

theorem parseLine_eq_none_of_no_ref (raw : List Char)
    (h : containsSub refKey raw = false) : parseLine raw = none := by
  have h1 : containsSub refKey (trim raw) = false := containsSub_trim refKey raw h
  simp only [parseLine]
  split
  · rfl
  · split
    · rfl
    · simp only [parseElementLine, firstBracketCapture_eq_none refKey (trim raw) h1]

/-! ## Lemmas about the executor's event trace -/

theorem disconnect_not_mem_runCalls (env : ExecEnv) (i : ℕ) :
    ∀ (calls : List MCPCall) (j : ℕ),
      Event.disconnectAttempt ∉ (runCalls env i calls j).2 := by
  intro calls
  induction calls with
  | nil => intro j; simp [runCalls]
  | cons c rest ih =>
    intro j
    simp only [runCalls]
    cases h : env.callOutcome i j with
    | ok _ => simpa using ih (j + 1)
    | error e => simp

theorem disconnect_not_mem_tryRawStep (env : ExecEnv) (i : ℕ) (step : String) :
    Event.disconnectAttempt ∉ (tryRawStep env i step).2 := by
  simp only [tryRawStep]
  split
  · simp
  · cases h : env.planGen i with
    | ok calls => simpa using disconnect_not_mem_runCalls env i calls 0
    | error e => simp

theorem disconnect_not_mem_execRawLoop (env : ExecEnv) :
    ∀ (steps : List String) (i : ℕ) (result : TestResult),
      Event.disconnectAttempt ∉ (execRawLoop env steps i result).2 := by
  intro steps
  induction steps with
  | nil => intro i result; simp [execRawLoop]
  | cons step rest ih =>
    intro i result
    have hstep := disconnect_not_mem_tryRawStep env i step
    simp only [execRawLoop]
    rcases h : tryRawStep env i step with ⟨o, ev⟩
    rw [h] at hstep
    cases o with
    | ok _ =>
      simp only [List.mem_append]
      intro hc
      rcases hc with hc | hc
      · exact hstep hc
      · exact ih (i + 1) _ hc
    | error e =>
      cases henv : env.failShot i <;>
        simp_all [List.mem_append]

theorem disconnect_not_mem_verifyOutcomesLoop (env : ExecEnv) :
    ∀ (outs : List String) (i : ℕ) (result : TestResult),
      Event.disconnectAttempt ∉ (verifyOutcomesLoop env outs i result).2 := by
  intro outs
  induction outs with
  | nil => intro i result; simp [verifyOutcomesLoop]
  | cons o rest ih =>
    intro i result
    simp only [verifyOutcomesLoop]
    split
    · exact ih (i + 1) result
    · split
      · simpa using ih (i + 1) result
      · cases henv : env.outcomeShot i <;> simp

theorem disconnect_not_mem_verifyOutcomesWithAI (env : ExecEnv)
    (outs : List String) (result : TestResult) :
    Event.disconnectAttempt ∉ (verifyOutcomesWithAI env outs result).2 := by
  simpa [verifyOutcomesWithAI] using
    disconnect_not_mem_verifyOutcomesLoop env outs 0 result

theorem disconnect_not_mem_stepPhase (env : ExecEnv) (input : TestScenario)
    (r0 : TestResult) :
    Event.disconnectAttempt ∉
      (if input.rawSteps ≠ [] then executeRawStepsWithAI env input.rawSteps r0
       else (legacyStepsLoop env input.steps 0 r0, [])).2 := by
  split
  · exact disconnect_not_mem_execRawLoop env input.rawSteps 0 r0
  · simp

theorem disconnect_not_mem_outcomePhase (env : ExecEnv) (input : TestScenario)
    (r1 : TestResult) :
    Event.disconnectAttempt ∉
      (if r1.status = RStatus.passed ∧ input.rawOutcomes ≠ [] then
         verifyOutcomesWithAI env input.rawOutcomes r1
       else if r1.status = RStatus.passed then
         (legacyVerifyOutcomes env input.expectedOutcomes 0 r1, [])
       else (r1, [])).2 := by
  split
  · exact disconnect_not_mem_verifyOutcomesWithAI env input.rawOutcomes r1
  · split <;> simp

theorem disconnect_not_mem_processCore (env : ExecEnv) (input : TestScenario) :
    Event.disconnectAttempt ∉ (processCore env input).2 := by
  simp only [processCore]
  cases h : env.connectOutcome with
  | error e => simp
  | ok _ =>
    simp only [List.mem_cons, List.mem_append]
    intro hc
    rcases hc with hc | hc | hc
    · exact Event.noConfusion hc
    · exact disconnect_not_mem_stepPhase env input _ hc
    · exact disconnect_not_mem_outcomePhase env input _ hc

/-! ## Claim theorems -/

/-- C1 (code bug).  For a scenario with raw steps [A, B, C] where B's plan
execution throws, the claim says `process` yields a steps list with exactly
2 entries (A passed, B failed with the error) and that C's plan is never
generated.  On the code, the `catch` in `executeRawStepsWithAI` `break`s
BEFORE the `result.steps.push(stepResult)`, so the failed `StepResult` for
B is dropped: the steps list has exactly 1 entry (A passed).  The fail-fast
half of the claim holds: the plan for C (index 2) is never requested.  This
theorem evaluates the embedded code at that failing input. -/
theorem process_drops_failed_step_result :
    (process envC1 scnC1).1.steps =
      [{ stepId := "raw-step-1", status := RStatus.passed }]
    ∧ (process envC1 scnC1).1.status = RStatus.failed
    ∧ Event.planRequest 1 ∈ (process envC1 scnC1).2
    ∧ Event.planRequest 2 ∉ (process envC1 scnC1).2 := by
  refine ⟨by decide, by decide, by decide, by decide⟩

/-- C2 (counterexample).  The claim says that with outcomes [X, Y] where
the oracle judges X failed and Y passed, Y is still evaluated and both are
reported.  On the code, `verifyOutcomesWithAI` `break`s after the first
failed outcome: the oracle is never consulted about Y (no `outcomeCheck 1`
event), and the run records only the failed-outcome error. -/
theorem process_stops_after_first_failed_outcome :
    (process envC2 scnC2).1.status = RStatus.failed
    ∧ (process envC2 scnC2).1.error = some "Expected outcome failed: X"
    ∧ Event.outcomeCheck 0 ∈ (process envC2 scnC2).2
    ∧ Event.outcomeCheck 1 ∉ (process envC2 scnC2).2 := by
  refine ⟨by decide, by decide, by decide, by decide⟩

/-- C2 (amended).  Outcome verification is fail-fast: for outcomes [X, Y]
(X non-empty) whose oracle verdict for X is failed, the run stops after X —
Y is not evaluated — the overall status is failed, and the error records X.
Per-outcome results are not stored (the embedded `TestResult`, like the
source's, has no outcomes list). -/
theorem verifyOutcomes_failfast (env : ExecEnv) (X Y : String) (r : TestResult)
    (hX : X ≠ "") (hv : env.outcomeVerdict 0 = false) :
    (verifyOutcomesWithAI env [X, Y] r).1.status = RStatus.failed
    ∧ (verifyOutcomesWithAI env [X, Y] r).1.error =
        some ("Expected outcome failed: " ++ X)
    ∧ Event.outcomeCheck 0 ∈ (verifyOutcomesWithAI env [X, Y] r).2
    ∧ Event.outcomeCheck 1 ∉ (verifyOutcomesWithAI env [X, Y] r).2 := by
  simp only [verifyOutcomesWithAI, verifyOutcomesLoop, hX, hv, if_false, if_neg]
  cases h : env.outcomeShot 0 <;> simp [h]

/-- C2 witness: the amended fail-fast theorem applied at a concrete
environment and outcomes. -/
theorem verifyOutcomes_failfast_witness :
    (verifyOutcomesWithAI envC2 ["X", "Y"] resInit).1.status = RStatus.failed
    ∧ (verifyOutcomesWithAI envC2 ["X", "Y"] resInit).1.error =
        some ("Expected outcome failed: " ++ "X")
    ∧ Event.outcomeCheck 0 ∈ (verifyOutcomesWithAI envC2 ["X", "Y"] resInit).2
    ∧ Event.outcomeCheck 1 ∉ (verifyOutcomesWithAI envC2 ["X", "Y"] resInit).2 :=
  verifyOutcomes_failfast envC2 "X" "Y" resInit (by decide) (by decide)

/-- C3 (confirmed).  Snapshot parsing is total (the parser is a total
function of the input text), order-preserving (the parsed elements carry
strictly increasing source-line indices, and dropping the indices gives
exactly `parseSnapshotYaml`; every indexed element comes from parsing its
own source line), and ref-gated (any line not containing the `[ref=`
token produces no element). -/
theorem snapshot_parser_total_ordered_refgated (y : List Char) :
    (parseWithIndex y).map Prod.snd = parseSnapshotYaml y
    ∧ List.Pairwise (fun p q => p.1 < q.1) (parseWithIndex y)
    ∧ (∀ p ∈ parseWithIndex y,
        ∃ raw, (splitLines y).get? p.1 = some raw ∧ parseLine raw = some p.2)
    ∧ (∀ raw : List Char, containsSub refKey raw = false → parseLine raw = none) := by
  refine ⟨?_, ?_, ?_, fun raw h => parseLine_eq_none_of_no_ref raw h⟩
  · simpa [parseWithIndex, parseSnapshotYaml, List.enum] using
      snd_filterMap_enumFrom 0 (splitLines y)
  · simpa [parseWithIndex, List.enum] using
      pairwise_fst_filterMap_enumFrom (splitLines y) 0
  · intro p hp
    have h0 := mem_filterMap_enumFrom_source (splitLines y) 0 p
      (by simpa [parseWithIndex, List.enum] using hp)
    simpa using h0

/-- C3 witness: the parser properties applied at a concrete report and, for
the ref-gate, at a concrete line without the token. -/
theorem snapshot_parser_witness :
    parseLine ("just text with no token".data) = none
    ∧ (parseWithIndex sampleYaml).map Prod.snd = parseSnapshotYaml sampleYaml :=
  ⟨(snapshot_parser_total_ordered_refgated []).2.2.2
      ("just text with no token".data) (by decide),
   (snapshot_parser_total_ordered_refgated sampleYaml).1⟩

/-- C4 (code bug).  For the line `- status [ref=e131]: Welcome back, Test!`
(the code's own documented example format), the claim says the parsed
element's `text` equals `Welcome back, Test!`.  The code's text regex is
`/\):\s*(.+)$/`, which demands a `)` before the colon; the delimiter after
the bracketed tokens is `]:`, so no text is ever extracted from the
documented formats and the field is left unset.  The other extractions
(type, name defaulting, flags) behave as claimed. -/
theorem parseElementLine_status_line_drops_text :
    parseElementLine ("- status [ref=e131]: Welcome back, Test!".data)
      = some { ref := "e131".data, type := "status".data, role := "status".data,
               name := none, text := none, url := none,
               disabled := false, active := false, cursor := none } := by
  decide

/-- C5 (counterexample).  The claim says `getSnapshot` rethrows the
underlying protocol-client failure.  On the code, the `try/catch` of
`getSnapshot` swallows the failure and returns the substitute value
`{ elements: [], rawYaml: '' }`. -/
theorem getSnapshot_swallows_error :
    getSnapshot { currentUrl := none } (Except.error "boom")
      = (Except.ok { elements := [], rawYaml := [] }, { currentUrl := none })
    ∧ (getSnapshot { currentUrl := none } (Except.error "boom")).1
        ≠ Except.error "boom" := by
  refine ⟨rfl, ?_⟩
  intro h
  rw [show (getSnapshot { currentUrl := none } (Except.error "boom")).1
        = Except.ok { elements := [], rawYaml := [] } from rfl] at h
  exact Except.noConfusion h

/-- C5 (amended).  `callTool` and `listTools` propagate every underlying
failure unchanged (and `callTool` leaves the facade state untouched on
failure), but `getSnapshot` catches any failure and returns an empty
snapshot instead of rethrowing. -/
theorem facade_error_propagation (st : FacadeState) (name : String)
    (params : List (String × String)) (e : String) :
    callToolF st name params (Except.error e) = (Except.error e, st)
    ∧ listToolsF (Except.error e) = Except.error e
    ∧ (getSnapshot st (Except.error e)).1
        = Except.ok { elements := [], rawYaml := [] } :=
  ⟨rfl, rfl, rfl⟩

/-- C6 (confirmed).  When the scenario-generation node's oracle call fails,
`run` short-circuits: the execute and analyze nodes are never invoked, the
final `currentStep` is `complete`, and the error set by the node is
preserved in the returned state. -/
theorem run_short_circuits_on_parse_error (env : WorkflowEnv)
    (input msg : String) (h : env.scenarioAgentResult = Except.error msg) :
    (run env input false).2 = [WNode.generate]
    ∧ WNode.execute ∉ (run env input false).2
    ∧ WNode.analyze ∉ (run env input false).2
    ∧ (run env input false).1.currentStep = WStep.complete
    ∧ (run env input false).1.error =
        some ("Scenario generation failed: " ++ msg) := by
  simp [run, generateScenario, h]

/-- C6 witness: the short-circuit theorem applied at a concrete workflow
environment whose scenario oracle fails. -/
theorem run_short_circuit_witness :
    (run wenvC6 "input text" false).2 = [WNode.generate]
    ∧ WNode.execute ∉ (run wenvC6 "input text" false).2
    ∧ WNode.analyze ∉ (run wenvC6 "input text" false).2
    ∧ (run wenvC6 "input text" false).1.currentStep = WStep.complete
    ∧ (run wenvC6 "input text" false).1.error =
        some ("Scenario generation failed: " ++ "oracle down") :=
  run_short_circuits_on_parse_error wenvC6 "input text" "oracle down" rfl

/-- C7 (confirmed).  `process` is a total function returning a
`TestResult`, and no matter how any phase turns out, its event trace ends
with exactly the `finally` block's actions: a final-screenshot attempt
immediately followed by the one and only disconnect — the connection is
closed exactly once, after the final screenshot attempt, before `process`
returns. -/
theorem process_cleanup_guarantee (env : ExecEnv) (input : TestScenario) :
    (process env input).2 = (processCore env input).2
        ++ [Event.screenshotAttempt "final-state", Event.disconnectAttempt]
    ∧ Event.disconnectAttempt ∉ (processCore env input).2
    ∧ (process env input).2.count Event.disconnectAttempt = 1
    ∧ Event.screenshotAttempt "final-state" ∈ (process env input).2 := by
  refine ⟨rfl, disconnect_not_mem_processCore env input, ?_, ?_⟩
  · simp [process, List.count_append,
      List.count_eq_zero.mpr (disconnect_not_mem_processCore env input)]
  · simp [process]

/-- C8 (confirmed).  A client without a client object or marked
disconnected (as both transport handlers do) fails `callTool` and
`listTools` immediately with the "not connected" error and sends no
request; a freshly constructed client (connect never called) behaves the
same way. -/
theorem client_failfast_when_disconnected (st : MCPClientState) (name : String)
    (sdkResult sdkResult2 : Except String MCPToolCallResult)
    (cmd : String) (args : List String) (h : st.connected = false) :
    callTool st name sdkResult = (Except.error notConnectedMsg, [])
    ∧ listTools st sdkResult2 = (Except.error notConnectedMsg, [])
    ∧ (onTransportError st).connected = false
    ∧ (onTransportClose st).connected = false
    ∧ callTool (onTransportError st) name sdkResult
        = (Except.error notConnectedMsg, [])
    ∧ listTools (onTransportClose st) sdkResult2
        = (Except.error notConnectedMsg, [])
    ∧ (mkMCPClient cmd args).clientPresent = false
    ∧ callTool (mkMCPClient cmd args) name sdkResult
        = (Except.error notConnectedMsg, []) := by
  refine ⟨?_, ?_, rfl, rfl, ?_, ?_, rfl, ?_⟩
  · simp [callTool, h]
  · simp [listTools, h]
  · simp [callTool, onTransportError]
  · simp [listTools, onTransportClose]
  · simp [callTool, mkMCPClient]

/-- C8 witness: the fail-fast theorem applied to a concrete dropped-
transport client state. -/
theorem client_failfast_witness :
    callTool stDropped "browser_click" (Except.ok { content := none })
      = (Except.error notConnectedMsg, [])
    ∧ listTools stDropped (Except.ok { content := none })
      = (Except.error notConnectedMsg, [])
    ∧ (onTransportError stDropped).connected = false
    ∧ (onTransportClose stDropped).connected = false
    ∧ callTool (onTransportError stDropped) "browser_click"
        (Except.ok { content := none }) = (Except.error notConnectedMsg, [])
    ∧ listTools (onTransportClose stDropped) (Except.ok { content := none })
        = (Except.error notConnectedMsg, [])
    ∧ (mkMCPClient "npx" []).clientPresent = false
    ∧ callTool (mkMCPClient "npx" []) "browser_click"
        (Except.ok { content := none }) = (Except.error notConnectedMsg, []) :=
  client_failfast_when_disconnected stDropped "browser_click"
    (Except.ok { content := none }) (Except.ok { content := none })
    "npx" [] (by decide)

/-- C9 (counterexample).  The claim says a structurally invalid oracle
response is a hard failure for the outcome-verification call and is not
coerced to the verdict `false`.  On the code, `verifyOutcome`'s `catch`
returns `false`: a response failing schema validation yields the same
verdict as a valid response whose `result` is `false`. -/
theorem verifyOutcome_coerces_invalid_to_false :
    validateVerificationResult (Json.str "garbled") = Except.error "Expected object"
    ∧ verifyOutcome (Except.ok (Json.str "garbled")) = false
    ∧ verifyOutcome (Except.error "invalid json") = false
    ∧ verifyOutcome (Except.ok (Json.obj [("result", Json.bool false)])) = false :=
  ⟨rfl, rfl, rfl, rfl⟩

/-- C9 (amended).  `generateMCPCommands` fails hard on a model failure or
a schema-validation failure (the error is wrapped and propagated), while
`verifyOutcome` catches any such failure and returns the verdict `false`;
a valid response's verdict is its `result` field. -/
theorem oracle_validation_semantics (e : String) (j : Json) :
    generateMCPCommands (Except.error e)
      = Except.error ("Failed to generate MCP commands: " ++ e)
    ∧ (∀ e2, validateMCPCalls j = Except.error e2 →
        generateMCPCommands (Except.ok j)
          = Except.error ("Failed to generate MCP commands: " ++ e2))
    ∧ verifyOutcome (Except.error e) = false
    ∧ (∀ e2, validateVerificationResult j = Except.error e2 →
        verifyOutcome (Except.ok j) = false)
    ∧ (∀ v, validateVerificationResult j = Except.ok v →
        verifyOutcome (Except.ok j) = v.result) := by
  refine ⟨rfl, ?_, rfl, ?_, ?_⟩ <;>
    intro x hx <;> simp [generateMCPCommands, verifyOutcome, hx]

/-- C9 witness: the validation-semantics theorem applied at a concrete
error and a concrete invalid response. -/
theorem oracle_validation_witness :
    generateMCPCommands (Except.error "model down")
      = Except.error ("Failed to generate MCP commands: " ++ "model down")
    ∧ verifyOutcome (Except.ok (Json.str "garbled")) = false :=
  ⟨(oracle_validation_semantics "model down" (Json.str "garbled")).1,
   (oracle_validation_semantics "model down" (Json.str "garbled")).2.2.2.1
     "Expected object" rfl⟩

/-- C10 (confirmed).  `connect` on an already-connected client returns
immediately: no transport is created (no spawn event) and the state —
including the client object, the connected flag, and the command
configuration — is returned unchanged. -/
theorem connect_idempotent (st : MCPClientState) (sdkConnect : Except String Unit)
    (h : st.connected = true) :
    connect st sdkConnect = (Except.ok (), st, []) := by
  simp [connect, h]

/-- C10 witness: idempotence applied to a concrete connected client. -/
theorem connect_idempotent_witness :
    connect stConnected (Except.error "spawn failed") = (Except.ok (), stConnected, []) :=
  connect_idempotent stConnected (Except.error "spawn failed") (by decide)

end AITest
